import Mathlib

/-!
# Verification of the Confidential Prediction Market contract and client

Shallow embedding of the `PredictionMarket` Solidity contract (shown in the
repository tutorial) and of the relevant client-adapter validation logic
(`Web3Service`), together with proofs of the specified properties.

Conventions:
* Addresses and wei amounts are `Nat`; address `0` is the Solidity
  zero-address sentinel (`address(0)`).
* Solidity mappings are total functions with the all-zero record as default,
  matching EVM storage semantics.
* A reverting entry point returns `Except.error e`; revert atomicity is
  explicit in the `step` function, which keeps the pre-state on error.
* `euint32` / `ebool` ciphertext handles are modelled by the plaintext they
  hold (the contract only ever stores them; it never branches on them).
-/

namespace PredictionMarket

/-- EVM addresses, modelled as naturals; `0` is `address(0)`. -/
abbrev Address := Nat

/-- Wei amounts. -/
abbrev Wei := Nat

/-- Public market record (struct `Market` in `PredictionMarket.sol`). -/
structure Market where
  question : String
  endTime : Nat
  totalYesBets : Nat
  totalNoBets : Nat
  resolved : Bool
  outcome : Bool
  creator : Address
  deriving Repr, DecidableEq

/-- The all-zero `Market`, the default value of the `markets` mapping. -/
def Market.default : Market :=
  { question := "", endTime := 0, totalYesBets := 0, totalNoBets := 0,
    resolved := false, outcome := false, creator := 0 }

/-- Per-user bet record (struct `Bet` in `PredictionMarket.sol`).
`encryptedAmount : euint32` and `encryptedPrediction : ebool` are modelled by
the plaintexts they encrypt. -/
structure Bet where
  encryptedAmount : Nat
  encryptedPrediction : Bool
  claimed : Bool
  bettor : Address
  deriving Repr, DecidableEq

/-- The all-zero `Bet`, the default value of the `bets` mapping. -/
def Bet.default : Bet :=
  { encryptedAmount := 0, encryptedPrediction := false, claimed := false, bettor := 0 }

/-- Contract storage: `marketCounter`, `markets`, and the two-level
`bets` mapping. -/
structure ContractState where
  marketCounter : Nat
  markets : Nat → Market
  bets : Nat → Address → Bet

/-- The freshly deployed contract: zero counter, all-default mappings. -/
def initialState : ContractState :=
  { marketCounter := 0, markets := fun _ => Market.default,
    bets := fun _ _ => Bet.default }

/-- Storage write `markets[i] = mk`. -/
def setMarket (s : ContractState) (i : Nat) (mk : Market) : ContractState :=
  { s with markets := fun j => if j = i then mk else s.markets j }

/-- Storage write `bets[i][a] = b`. -/
def setBetRecord (s : ContractState) (i : Nat) (a : Address) (b : Bet) :
    ContractState :=
  { s with bets := fun j c => if j = i ∧ c = a then b else s.bets j c }

/-- Revert reasons of the contract's `require` statements and modifiers. -/
inductive CErr where
  | marketDoesNotExist
  | marketNotActive
  | invalidBetAmount
  | alreadyPlacedBet
  | marketNotEnded
  | onlyCreator
  | alreadyResolved
  | marketNotResolved
  | noBetFound
  | alreadyClaimed
  deriving Repr, DecidableEq

/-- Events emitted by the contract (per the ABI in `web3.ts`). -/
inductive Event where
  | MarketCreated (marketId : Nat) (question : String) (endTime : Nat)
      (creator : Address)
  | BetPlaced (marketId : Nat) (bettor : Address) (amount : Wei)
  | MarketResolved (marketId : Nat) (outcome : Bool)
  | WinningsClaimed (marketId : Nat) (winner : Address) (amount : Wei)
  deriving Repr, DecidableEq

/-- Constant `MIN_BET`. Modelled from the spec: the constant's declaration is
not in the shown excerpt; the stake bounds are fixed at 0.001–10 ETH by the
spec, the client validation and the tutorial checklist. 0.001 ether in wei. -/
def MIN_BET : Wei := 1000000000000000

/-- Constant `MAX_BET`. Modelled from the spec: 10 ether in wei. -/
def MAX_BET : Wei := 10000000000000000000

/-- Modifier `marketExists`. Modelled from the spec: its body is not in the
shown excerpt; a market exists iff its id was allocated by `marketCounter++`,
i.e. `_marketId < marketCounter` (revert message "Market does not exist"). -/
def marketExists (s : ContractState) (marketId : Nat) : Prop :=
  marketId < s.marketCounter

instance (s : ContractState) (marketId : Nat) :
    Decidable (marketExists s marketId) :=
  inferInstanceAs (Decidable (marketId < s.marketCounter))

/-- Modifier `marketActive`. Modelled from the spec: a market is `Open` while
the current time is before its end time and it is unresolved. -/
def marketActive (s : ContractState) (marketId : Nat) (now : Nat) : Prop :=
  now < (s.markets marketId).endTime ∧ (s.markets marketId).resolved = false

instance (s : ContractState) (marketId : Nat) (now : Nat) :
    Decidable (marketActive s marketId now) :=
  inferInstanceAs (Decidable (_ ∧ _))

/-- Modifier `marketEnded`. Modelled from the spec: a market has `Ended` once
the current time has reached its end time (revert message "Market not
ended"). -/
def marketEnded (s : ContractState) (marketId : Nat) (now : Nat) : Prop :=
  (s.markets marketId).endTime ≤ now

instance (s : ContractState) (marketId : Nat) (now : Nat) :
    Decidable (marketEnded s marketId now) :=
  inferInstanceAs (Decidable (_ ≤ _))

/-- Entry point `createMarket(_question, _duration)` (contract, tutorial lines 218–235):
allocates `marketId = marketCounter++`, stores the new record with
`endTime = block.timestamp + _duration`, zero totals, unresolved, creator =
`msg.sender`, emits `MarketCreated` and returns the id. It performs no input
validation and never reverts. -/
def createMarket (s : ContractState) (sender : Address) (now : Nat)
    (question : String) (duration : Nat) : Nat × ContractState × List Event :=
  let marketId := s.marketCounter
  let mk : Market :=
    { question := question, endTime := now + duration, totalYesBets := 0,
      totalNoBets := 0, resolved := false, outcome := false, creator := sender }
  ( marketId,
    { setMarket s marketId mk with marketCounter := s.marketCounter + 1 },
    [Event.MarketCreated marketId question (now + duration) sender] )

/-- Entry point `placeBet(_marketId, _prediction)`, payable (contract, tutorial lines
239–268): guarded by `marketExists` and `marketActive`, requires
`MIN_BET ≤ msg.value ≤ MAX_BET` and `bets[_marketId][msg.sender].bettor ==
address(0)`; stores the encrypted bet (`uint32(msg.value / 0.001 ether)` as
amount units) and emits `BetPlaced`. Note: it does not touch
`totalYesBets` / `totalNoBets`. -/
def placeBet (s : ContractState) (sender : Address) (now : Nat) (value : Wei)
    (marketId : Nat) (prediction : Bool) :
    Except CErr (ContractState × List Event) :=
  if ¬ marketExists s marketId then .error .marketDoesNotExist
  else if ¬ marketActive s marketId now then .error .marketNotActive
  else if ¬ (MIN_BET ≤ value ∧ value ≤ MAX_BET) then .error .invalidBetAmount
  else if ¬ ((s.bets marketId sender).bettor = 0) then .error .alreadyPlacedBet
  else
    let betAmountUnits := (value / 1000000000000000) % 2 ^ 32
    let b : Bet :=
      { encryptedAmount := betAmountUnits, encryptedPrediction := prediction,
        claimed := false, bettor := sender }
    .ok (setBetRecord s marketId sender b, [Event.BetPlaced marketId sender value])

/-- Entry point `resolveMarket(_marketId, _outcome)` (contract, tutorial lines 272–285):
modifiers in source order `marketExists`, `marketEnded`, `onlyCreator`, then
`require(!resolved)`; sets `resolved = true` and `outcome = _outcome`, emits
`MarketResolved`. -/
def resolveMarket (s : ContractState) (sender : Address) (now : Nat)
    (marketId : Nat) (outcome : Bool) :
    Except CErr (ContractState × List Event) :=
  if ¬ marketExists s marketId then .error .marketDoesNotExist
  else if ¬ marketEnded s marketId now then .error .marketNotEnded
  else if ¬ (sender = (s.markets marketId).creator) then .error .onlyCreator
  else if (s.markets marketId).resolved then .error .alreadyResolved
  else
    let mk := s.markets marketId
    .ok (setMarket s marketId { mk with resolved := true, outcome := outcome },
         [Event.MarketResolved marketId outcome])

/-- Entry point `claimWinnings(_marketId)` (contract, tutorial lines 289–314): requires
the market resolved, `bets[_marketId][msg.sender].bettor == msg.sender` and
not yet claimed; marks claimed, then if both pools are positive pays
`MIN_BET + MIN_BET * totalLosingPool / totalWinningPool` (the fixed `MIN_BET`
stands in for the encrypted stake) and emits `WinningsClaimed`; otherwise
transfers nothing and emits nothing. Returns the transferred amount. -/
def claimWinnings (s : ContractState) (sender : Address) (marketId : Nat) :
    Except CErr (ContractState × Option Wei × List Event) :=
  if ¬ marketExists s marketId then .error .marketDoesNotExist
  else if ¬ ((s.markets marketId).resolved = true) then .error .marketNotResolved
  else if ¬ ((s.bets marketId sender).bettor = sender) then .error .noBetFound
  else if (s.bets marketId sender).claimed then .error .alreadyClaimed
  else
    let market := s.markets marketId
    let s' := setBetRecord s marketId sender
      { s.bets marketId sender with claimed := true }
    let totalWinningPool :=
      if market.outcome then market.totalYesBets else market.totalNoBets
    let totalLosingPool :=
      if market.outcome then market.totalNoBets else market.totalYesBets
    if 0 < totalWinningPool ∧ 0 < totalLosingPool then
      let betAmount := MIN_BET
      let winnings := betAmount + betAmount * totalLosingPool / totalWinningPool
      .ok (s', some winnings, [Event.WinningsClaimed marketId sender winnings])
    else
      .ok (s', none, [])

/-- View `getMarket(_marketId)`. Modelled from the spec: only its ABI
declaration is in the repository; per the spec it is the read-only query
returning the market's current public fields (question, endTime,
totalYesBets, totalNoBets, resolved, outcome, creator). -/
def getMarket (s : ContractState) (marketId : Nat) :
    String × Nat × Nat × Nat × Bool × Bool × Address :=
  let mk := s.markets marketId
  (mk.question, mk.endTime, mk.totalYesBets, mk.totalNoBets,
   mk.resolved, mk.outcome, mk.creator)

/-- One entry-point invocation with its transaction environment. -/
inductive Call where
  | create (sender : Address) (now : Nat) (question : String) (duration : Nat)
  | bet (sender : Address) (now : Nat) (value : Wei) (marketId : Nat)
      (prediction : Bool)
  | resolve (sender : Address) (now : Nat) (marketId : Nat) (outcome : Bool)
  | claim (sender : Address) (marketId : Nat)

/-- Transaction semantics: a reverting call leaves storage unchanged. -/
def step (s : ContractState) (c : Call) : ContractState :=
  match c with
  | .create sender now q d => (createMarket s sender now q d).2.1
  | .bet sender now v m p =>
      match placeBet s sender now v m p with
      | .ok (s', _) => s'
      | .error _ => s
  | .resolve sender now m o =>
      match resolveMarket s sender now m o with
      | .ok (s', _) => s'
      | .error _ => s
  | .claim sender m =>
      match claimWinnings s sender m with
      | .ok (s', _, _) => s'
      | .error _ => s

/-- Run a sequence of entry-point calls. -/
def run (s : ContractState) (cs : List Call) : ContractState :=
  cs.foldl step s

/-- Whether a call succeeded. -/
def callOk {ε α : Type} : Except ε α → Bool
  | .ok _ => true
  | .error _ => false

/-- The failure reason of a failed call, if any. -/
def callErr {ε α : Type} : Except ε α → Option ε
  | .ok _ => none
  | .error e => some e

/-- The amount transferred by a `claimWinnings` call (`none` when the call
reverted or the pools guard skipped the payout). -/
def claimPayout (r : Except CErr (ContractState × Option Wei × List Event)) :
    Option Wei :=
  match r with
  | .ok (_, p, _) => p
  | .error _ => none

/-- The events emitted by a `claimWinnings` call. -/
def claimEvents (r : Except CErr (ContractState × Option Wei × List Event)) :
    List Event :=
  match r with
  | .ok (_, _, evs) => evs
  | .error _ => []

/-- Winning pool selected by the resolved outcome
(`market.outcome ? market.totalYesBets : market.totalNoBets`). -/
def winningPool (mk : Market) : Nat :=
  if mk.outcome then mk.totalYesBets else mk.totalNoBets

/-- Losing pool selected by the resolved outcome
(`market.outcome ? market.totalNoBets : market.totalYesBets`). -/
def losingPool (mk : Market) : Nat :=
  if mk.outcome then mk.totalNoBets else mk.totalYesBets

/-- Failure reasons of the client-side validation in `Web3Service`. -/
inductive ClientErr where
  | emptyQuestion
  | nonPositiveDuration
  deriving Repr, DecidableEq

/-- JavaScript `String.prototype.trim`: strip leading and trailing
whitespace. Implemented structurally over the character list so that it
evaluates inside the kernel. -/
def jsTrim (q : String) : String :=
  String.mk
    (((q.data.dropWhile Char.isWhitespace).reverse.dropWhile
        Char.isWhitespace).reverse)

/-- Client-side validation of `Web3Service.createMarket` in the Sepolia
adapter (part_001 lines 309–323): rejects a falsy or all-whitespace question
("Question cannot be empty") and a non-positive duration ("Duration must be
positive") before submitting the transaction. -/
def clientCreateMarketCheck (question : String) (duration : Int) :
    Except ClientErr Unit :=
  if question = "" ∨ jsTrim question = "" then .error .emptyQuestion
  else if duration ≤ 0 then .error .nonPositiveDuration
  else .ok ()

/-! ## Scenario states used by concrete theorems and witnesses -/

/-- Concrete states used by several witnesses: a market created by address 1
at time 0 with duration 10, resolved by its creator at time 10. -/
def witState : ContractState :=
  run initialState [Call.create 1 0 "Will it settle?" 10, Call.resolve 1 10 0 true]

/-- Scenario state for claim C1: address 1 creates a market at time 0 with
duration 100. -/
def c1AfterCreate : ContractState :=
  (createMarket initialState 1 0 "Will it rain?" 100).2.1

/-- Scenario state for claim C1 after address 10 bets `MIN_BET` on yes. -/
def c1AfterBet1 : ContractState :=
  step c1AfterCreate (Call.bet 10 5 MIN_BET 0 true)

/-- Scenario state for claim C1 after address 20 also bets `MIN_BET` on no. -/
def c1AfterBet2 : ContractState :=
  step c1AfterBet1 (Call.bet 20 6 MIN_BET 0 false)

/-- Variant of the claim C1 scenario with both predictions flipped. -/
def c1AfterBet2Swapped : ContractState :=
  step (step c1AfterCreate (Call.bet 10 5 MIN_BET 0 false))
    (Call.bet 20 6 MIN_BET 0 true)

/-- State produced by the claim C6 counterexample call: `createMarket` with an
empty question and zero duration. -/
def c6State : ContractState := (createMarket initialState 7 1000 "" 0).2.1

/-- Concrete state for the claim C4 and C10 witnesses: market 0 created by
address 1, bet on by address 10, then resolved by its creator (totals stay
zero because `placeBet` never updates them). -/
def resolvedWithBet : ContractState :=
  run initialState
    [Call.create 1 0 "Will it settle by ten?" 10,
     Call.bet 10 5 MIN_BET 0 true, Call.resolve 1 10 0 true]

/-- Storage state with positive aggregate totals, used by the C7 and C9
witnesses. (`placeBet` as shipped never updates the totals, but
`claimWinnings` is defined — and specified — over arbitrary storage.) -/
def pooledState : ContractState :=
  { marketCounter := 1,
    markets := fun _ =>
      { question := "Did the yes side win?", endTime := 10,
        totalYesBets := 3000000000000000, totalNoBets := 2000000000000000,
        resolved := true, outcome := true, creator := 1 },
    bets := fun _ _ =>
      { encryptedAmount := 1, encryptedPrediction := true, claimed := false,
        bettor := 5 } }

/-! ## Helper lemmas -/

theorem callOk_eq_true_iff {ε α : Type} (r : Except ε α) :
    callOk r = true ↔ ∃ x, r = .ok x := by
  cases r <;> simp [callOk]

theorem createMarket_state (s : ContractState) (sender : Address) (now : Nat)
    (q : String) (d : Nat) :
    ((createMarket s sender now q d).2.1).marketCounter = s.marketCounter + 1 ∧
    ((createMarket s sender now q d).2.1).bets = s.bets ∧
    ∀ m, m ≠ s.marketCounter →
      ((createMarket s sender now q d).2.1).markets m = s.markets m := by
  refine ⟨rfl, rfl, fun m hm => ?_⟩
  simp [createMarket, setMarket, hm]

theorem placeBet_ok_inv {s : ContractState} {sender : Address} {now value : Nat}
    {marketId : Nat} {s' : ContractState} {evs : List Event}
    {prediction : Bool}
    (h : placeBet s sender now value marketId prediction = .ok (s', evs)) :
    marketExists s marketId ∧ marketActive s marketId now ∧
    (MIN_BET ≤ value ∧ value ≤ MAX_BET) ∧
    (s.bets marketId sender).bettor = 0 ∧
    s' = setBetRecord s marketId sender
      { encryptedAmount := (value / 1000000000000000) % 2 ^ 32,
        encryptedPrediction := prediction, claimed := false,
        bettor := sender } := by
  unfold placeBet at h
  split at h
  · exact absurd h (by simp)
  · split at h
    · exact absurd h (by simp)
    · split at h
      · exact absurd h (by simp)
      · split at h
        · exact absurd h (by simp)
        · rename_i h1 h2 h3 h4
          refine ⟨not_not.mp h1, not_not.mp h2, not_not.mp h3, not_not.mp h4, ?_⟩
          injection h with h5
          exact (congrArg Prod.fst h5).symm

theorem resolveMarket_ok_inv {s : ContractState} {sender : Address}
    {now marketId : Nat} {outcome : Bool} {s' : ContractState}
    {evs : List Event}
    (h : resolveMarket s sender now marketId outcome = .ok (s', evs)) :
    marketExists s marketId ∧ marketEnded s marketId now ∧
    sender = (s.markets marketId).creator ∧
    (s.markets marketId).resolved = false ∧
    s' = setMarket s marketId
      { s.markets marketId with resolved := true, outcome := outcome } := by
  unfold resolveMarket at h
  split at h
  · exact absurd h (by simp)
  · split at h
    · exact absurd h (by simp)
    · split at h
      · exact absurd h (by simp)
      · split at h
        · exact absurd h (by simp)
        · rename_i h1 h2 h3 h4
          refine ⟨not_not.mp h1, not_not.mp h2, not_not.mp h3,
            eq_false_of_ne_true h4, ?_⟩
          injection h with h5
          exact (congrArg Prod.fst h5).symm

theorem claimWinnings_ok_inv {s : ContractState} {sender : Address}
    {marketId : Nat} {s' : ContractState} {p : Option Wei} {evs : List Event}
    (h : claimWinnings s sender marketId = .ok (s', p, evs)) :
    marketExists s marketId ∧ (s.markets marketId).resolved = true ∧
    (s.bets marketId sender).bettor = sender ∧
    (s.bets marketId sender).claimed = false ∧
    s' = setBetRecord s marketId sender
      { s.bets marketId sender with claimed := true } := by
  unfold claimWinnings at h
  split at h
  · exact absurd h (by simp)
  · split at h
    · exact absurd h (by simp)
    · split at h
      · exact absurd h (by simp)
      · split at h
        · exact absurd h (by simp)
        · rename_i h1 h2 h3 h4
          refine ⟨not_not.mp h1, not_not.mp h2, not_not.mp h3,
            eq_false_of_ne_true h4, ?_⟩
          dsimp only at h
          split at h <;> split at h <;>
          · injection h with h5
            exact (congrArg Prod.fst h5).symm

theorem step_counter_mono (s : ContractState) (c : Call) :
    s.marketCounter ≤ (step s c).marketCounter := by
  cases c with
  | create sender now q d => exact Nat.le_of_lt (Nat.lt_succ_self _)
  | bet sender now v m p =>
      dsimp only [step]
      cases h : placeBet s sender now v m p with
      | ok out =>
          obtain ⟨s', evs⟩ := out
          obtain ⟨-, -, -, -, rfl⟩ := placeBet_ok_inv h
          exact Nat.le_refl _
      | error e => exact Nat.le_refl _
  | resolve sender now m o =>
      dsimp only [step]
      cases h : resolveMarket s sender now m o with
      | ok out =>
          obtain ⟨s', evs⟩ := out
          obtain ⟨-, -, -, -, rfl⟩ := resolveMarket_ok_inv h
          exact Nat.le_refl _
      | error e => exact Nat.le_refl _
  | claim sender m =>
      dsimp only [step]
      cases h : claimWinnings s sender m with
      | ok out =>
          obtain ⟨s', p, evs⟩ := out
          obtain ⟨-, -, -, -, rfl⟩ := claimWinnings_ok_inv h
          exact Nat.le_refl _
      | error e => exact Nat.le_refl _

theorem step_resolved_mono (s : ContractState) (c : Call) (m : Nat)
    (hm : m < s.marketCounter) (h : (s.markets m).resolved = true) :
    ((step s c).markets m).resolved = true := by
  cases c with
  | create sender now q d =>
      show (((createMarket s sender now q d).2.1).markets m).resolved = true
      rw [(createMarket_state s sender now q d).2.2 m (Nat.ne_of_lt hm)]
      exact h
  | bet sender now v mid p =>
      dsimp only [step]
      cases h' : placeBet s sender now v mid p with
      | ok out =>
          obtain ⟨s', evs⟩ := out
          obtain ⟨-, -, -, -, rfl⟩ := placeBet_ok_inv h'
          exact h
      | error e => exact h
  | resolve sender now mid o =>
      dsimp only [step]
      cases h' : resolveMarket s sender now mid o with
      | ok out =>
          obtain ⟨s', evs⟩ := out
          obtain ⟨-, -, -, -, rfl⟩ := resolveMarket_ok_inv h'
          show ((setMarket s mid _).markets m).resolved = true
          dsimp only [setMarket]
          split
          · rfl
          · exact h
      | error e => exact h
  | claim sender mid =>
      dsimp only [step]
      cases h' : claimWinnings s sender mid with
      | ok out =>
          obtain ⟨s', p, evs⟩ := out
          obtain ⟨-, -, -, -, rfl⟩ := claimWinnings_ok_inv h'
          exact h
      | error e => exact h

theorem run_resolved_mono (s : ContractState) (cs : List Call) (m : Nat)
    (hm : m < s.marketCounter) (h : (s.markets m).resolved = true) :
    ((run s cs).markets m).resolved = true := by
  induction cs generalizing s with
  | nil => exact h
  | cons c cs ih =>
      exact ih (step s c)
        (Nat.lt_of_lt_of_le hm (step_counter_mono s c))
        (step_resolved_mono s c m hm h)

/-! ## Claim C2 -/

/-- Claim C2: for every market and every sequence of entry-point calls
(`createMarket`, `placeBet`, `resolveMarket`, `claimWinnings`), once the
market's `resolved` flag is true it is never set back to false, and the
false-to-true transition happens at most once: a second `resolveMarket` on
an already-resolved market always fails. -/
theorem resolved_monotone_single_transition :
    (∀ (s : ContractState) (cs : List Call) (m : Nat),
        m < s.marketCounter → (s.markets m).resolved = true →
        ((run s cs).markets m).resolved = true) ∧
    (∀ (s : ContractState) (sender : Address) (now marketId : Nat) (o : Bool),
        (s.markets marketId).resolved = true →
        callOk (resolveMarket s sender now marketId o) = false) := by
  refine ⟨run_resolved_mono, fun s sender now marketId o h => ?_⟩
  cases hr : resolveMarket s sender now marketId o with
  | error e => rfl
  | ok out =>
      obtain ⟨s', evs⟩ := out
      obtain ⟨-, -, -, hres, -⟩ := resolveMarket_ok_inv hr
      rw [h] at hres
      cases hres

theorem resolved_monotone_single_transition_witness :
    0 < witState.marketCounter ∧ (witState.markets 0).resolved = true ∧
    ((run witState [Call.claim 2 0, Call.bet 3 4 MIN_BET 0 true]).markets 0).resolved
      = true ∧
    callOk (resolveMarket witState 2 20 0 false) = false :=
  ⟨by decide, by decide,
   resolved_monotone_single_transition.1 witState
     [Call.claim 2 0, Call.bet 3 4 MIN_BET 0 true] 0 (by decide) (by decide),
   resolved_monotone_single_transition.2 witState 2 20 0 false (by decide)⟩

/-! ## Claim C1 -/

/-- Claim C1, evaluated at the failing input: two distinct addresses (10 and
20) successfully place opposite bets of `MIN_BET` each, and both bet records
are stored — yet `getMarket` still reports `totalYesBets = 0` and
`totalNoBets = 0`, because `placeBet` never updates the aggregate totals; so
the totals do not reflect the two stakes. The privacy half does hold:
`getMarket` returns the same tuple when both stored predictions are flipped,
so the read-only query exposes neither individual prediction. -/
theorem totals_not_updated_by_placeBet :
    callOk (placeBet c1AfterCreate 10 5 MIN_BET 0 true) = true ∧
    callOk (placeBet c1AfterBet1 20 6 MIN_BET 0 false) = true ∧
    (c1AfterBet2.bets 0 10).bettor = 10 ∧
    (c1AfterBet2.bets 0 10).encryptedPrediction = true ∧
    (c1AfterBet2.bets 0 20).bettor = 20 ∧
    (c1AfterBet2.bets 0 20).encryptedPrediction = false ∧
    getMarket c1AfterBet2 0 = ("Will it rain?", 100, 0, 0, false, false, 1) ∧
    getMarket c1AfterBet2Swapped 0 = getMarket c1AfterBet2 0 :=
  ⟨by decide, by decide, by decide, by decide, by decide, by decide, by decide,
   by decide⟩

/-! ## Claim C6 -/

/-- Claim C6 counterexample: the on-chain `createMarket`, called with an empty
question and a non-positive (zero) duration, does not fail — it allocates
id 0, increments the counter and stores the record — contradicting the claim
that `createMarket` fails on such inputs. -/
theorem createMarket_accepts_empty_question :
    (createMarket initialState 7 1000 "" 0).1 = 0 ∧
    c6State.marketCounter = 1 ∧
    c6State.markets 0 =
      { question := "", endTime := 1000, totalYesBets := 0, totalNoBets := 0,
        resolved := false, outcome := false, creator := 7 } := by
  decide

/-- Claim C6 (amended): the on-chain `createMarket` performs no input
validation and never fails: for every input it constructs the new market in
the Open state (resolved false, end time = current time + duration, zero
aggregate stakes, creator = caller), emits the creation event and returns the
new market's identifier. The empty-question / non-positive-duration rejection
exists only as client-side validation in the Sepolia adapter's
`Web3Service.createMarket`. -/
theorem createMarket_constructs_market :
    (∀ (s : ContractState) (sender : Address) (now : Nat) (q : String) (d : Nat),
        (createMarket s sender now q d).1 = s.marketCounter ∧
        ((createMarket s sender now q d).2.1).marketCounter = s.marketCounter + 1 ∧
        ((createMarket s sender now q d).2.1).markets s.marketCounter =
          { question := q, endTime := now + d, totalYesBets := 0,
            totalNoBets := 0, resolved := false, outcome := false,
            creator := sender } ∧
        (createMarket s sender now q d).2.2 =
          [Event.MarketCreated s.marketCounter q (now + d) sender]) ∧
    (∀ (q : String) (d : Int), (q = "" ∨ jsTrim q = "") →
        clientCreateMarketCheck q d = .error .emptyQuestion) ∧
    (∀ (q : String) (d : Int), d ≤ 0 →
        callOk (clientCreateMarketCheck q d) = false) ∧
    (∀ (q : String) (d : Int), ¬(q = "" ∨ jsTrim q = "") → 0 < d →
        clientCreateMarketCheck q d = .ok ()) := by
  refine ⟨fun s sender now q d => ⟨rfl, rfl, ?_, rfl⟩, ?_, ?_, ?_⟩
  · simp [createMarket, setMarket]
  · intro q d h
    unfold clientCreateMarketCheck
    rw [if_pos h]
  · intro q d h
    unfold clientCreateMarketCheck
    split
    · rfl
    · rfl
  · intro q d h1 h2
    unfold clientCreateMarketCheck
    rw [if_neg h1, if_neg (by omega : ¬ d ≤ 0)]

theorem createMarket_constructs_market_witness :
    (createMarket initialState 3 50 "Will ETH flip BTC?" 100).1 = 0 ∧
    clientCreateMarketCheck "  " 5 = .error .emptyQuestion ∧
    callOk (clientCreateMarketCheck "ok?" (-2)) = false ∧
    clientCreateMarketCheck "ok?" 5 = .ok () :=
  ⟨(createMarket_constructs_market.1 initialState 3 50 "Will ETH flip BTC?" 100).1,
   createMarket_constructs_market.2.1 "  " 5 (Or.inr (by decide)),
   createMarket_constructs_market.2.2.1 "ok?" (-2) (by decide),
   createMarket_constructs_market.2.2.2 "ok?" 5 (by decide) (by decide)⟩

/-! ## More helper lemmas -/

theorem setBetRecord_read_same (s : ContractState) (m : Nat) (a : Address)
    (b : Bet) : (setBetRecord s m a b).bets m a = b := by
  simp [setBetRecord]

theorem setMarket_read_same (s : ContractState) (i : Nat) (mk : Market) :
    (setMarket s i mk).markets i = mk := by
  simp [setMarket]

theorem placeBet_nonzero_bettor_fails (s : ContractState) (sender : Address)
    (now value m : Nat) (p : Bool) (h : (s.bets m sender).bettor ≠ 0) :
    callOk (placeBet s sender now value m p) = false := by
  cases hr : placeBet s sender now value m p with
  | error e => rfl
  | ok out =>
      obtain ⟨s', evs⟩ := out
      obtain ⟨-, -, -, h0, -⟩ := placeBet_ok_inv hr
      exact absurd h0 h

theorem step_bettor_persists (s : ContractState) (c : Call) (m : Nat)
    (a : Address) (h : (s.bets m a).bettor = a) :
    ((step s c).bets m a).bettor = a := by
  cases c with
  | create sender now q d =>
      show (((createMarket s sender now q d).2.1).bets m a).bettor = a
      rw [(createMarket_state s sender now q d).2.1]
      exact h
  | bet sender now v mid p =>
      dsimp only [step]
      cases h' : placeBet s sender now v mid p with
      | error e => exact h
      | ok out =>
          obtain ⟨s', evs⟩ := out
          obtain ⟨-, -, -, h0, rfl⟩ := placeBet_ok_inv h'
          dsimp only [setBetRecord]
          split
          · rename_i hcond
            obtain ⟨rfl, rfl⟩ := hcond
            rfl
          · exact h
  | resolve sender now mid o =>
      dsimp only [step]
      cases h' : resolveMarket s sender now mid o with
      | error e => exact h
      | ok out =>
          obtain ⟨s', evs⟩ := out
          obtain ⟨-, -, -, -, rfl⟩ := resolveMarket_ok_inv h'
          exact h
  | claim sender mid =>
      dsimp only [step]
      cases h' : claimWinnings s sender mid with
      | error e => exact h
      | ok out =>
          obtain ⟨s', p, evs⟩ := out
          obtain ⟨-, -, hbet, -, rfl⟩ := claimWinnings_ok_inv h'
          dsimp only [setBetRecord]
          split
          · rename_i hcond
            obtain ⟨rfl, rfl⟩ := hcond
            exact h
          · exact h

theorem run_bettor_persists (s : ContractState) (cs : List Call) (m : Nat)
    (a : Address) (h : (s.bets m a).bettor = a) :
    ((run s cs).bets m a).bettor = a := by
  induction cs generalizing s with
  | nil => exact h
  | cons c cs ih => exact ih (step s c) (step_bettor_persists s c m a h)

/-! ## Claim C3 -/

/-- Claim C3: for every (market, address) pair at most one bet record ever
exists. A successful `placeBet` requires the stored `bettor` field to be the
zero-address sentinel and then stores the caller as `bettor`; whenever the
stored `bettor` field is non-zero, `placeBet` on that slot fails; hence for a
non-zero caller a second `placeBet` after a successful one always fails; and
a stored bet record's `bettor` field persists across every sequence of
entry-point calls. -/
theorem placeBet_at_most_one_bet :
    (∀ (s : ContractState) (sender : Address) (now value m : Nat) (p : Bool)
        (out : ContractState × List Event),
        placeBet s sender now value m p = .ok out →
        (s.bets m sender).bettor = 0 ∧ ((out.1).bets m sender).bettor = sender) ∧
    (∀ (s : ContractState) (sender : Address) (now value m : Nat) (p : Bool),
        (s.bets m sender).bettor ≠ 0 →
        callOk (placeBet s sender now value m p) = false) ∧
    (∀ (s : ContractState) (sender : Address) (now value m now' value' : Nat)
        (p p' : Bool), sender ≠ 0 →
        callOk (placeBet s sender now value m p) = true →
        callOk (placeBet (step s (Call.bet sender now value m p))
          sender now' value' m p') = false) ∧
    (∀ (s : ContractState) (cs : List Call) (m : Nat) (a : Address),
        (s.bets m a).bettor = a → ((run s cs).bets m a).bettor = a) := by
  refine ⟨?_, placeBet_nonzero_bettor_fails, ?_, run_bettor_persists⟩
  · intro s sender now value m p out hok
    obtain ⟨s', evs⟩ := out
    obtain ⟨-, -, -, h0, rfl⟩ := placeBet_ok_inv hok
    exact ⟨h0, by rw [setBetRecord_read_same]⟩
  · intro s sender now value m now' value' p p' hs h
    rw [callOk_eq_true_iff] at h
    obtain ⟨⟨s', evs⟩, hok⟩ := h
    have hstep : step s (Call.bet sender now value m p) = s' := by
      dsimp only [step]
      rw [hok]
    rw [hstep]
    obtain ⟨-, -, -, -, rfl⟩ := placeBet_ok_inv hok
    apply placeBet_nonzero_bettor_fails
    rw [setBetRecord_read_same]
    exact hs

theorem placeBet_at_most_one_bet_witness :
    ((c1AfterCreate.bets 0 10).bettor = 0 ∧ (c1AfterBet1.bets 0 10).bettor = 10) ∧
    callOk (placeBet c1AfterBet1 10 7 MIN_BET 0 false) = false ∧
    callOk (placeBet (step c1AfterCreate (Call.bet 10 5 MIN_BET 0 true))
      10 7 MIN_BET 0 false) = false ∧
    ((run c1AfterBet1 [Call.bet 20 6 MIN_BET 0 false, Call.claim 10 0]).bets 0 10).bettor
      = 10 :=
  ⟨placeBet_at_most_one_bet.1 c1AfterCreate 10 5 MIN_BET 0 true
     (c1AfterBet1, [Event.BetPlaced 0 10 MIN_BET]) rfl,
   placeBet_at_most_one_bet.2.1 c1AfterBet1 10 7 MIN_BET 0 false (by decide),
   placeBet_at_most_one_bet.2.2.1 c1AfterCreate 10 5 MIN_BET 0 7 MIN_BET true false
     (by decide) (by decide),
   placeBet_at_most_one_bet.2.2.2 c1AfterBet1
     [Call.bet 20 6 MIN_BET 0 false, Call.claim 10 0] 0 10 (by decide)⟩

theorem step_claimed_persists (s : ContractState) (c : Call) (m : Nat)
    (a : Address) (ha : a ≠ 0) (hb : (s.bets m a).bettor = a)
    (hc : (s.bets m a).claimed = true) :
    ((step s c).bets m a).bettor = a ∧ ((step s c).bets m a).claimed = true := by
  cases c with
  | create sender now q d =>
      show (((createMarket s sender now q d).2.1).bets m a).bettor = a ∧
        (((createMarket s sender now q d).2.1).bets m a).claimed = true
      rw [(createMarket_state s sender now q d).2.1]
      exact ⟨hb, hc⟩
  | bet sender now v mid p =>
      dsimp only [step]
      cases h' : placeBet s sender now v mid p with
      | error e => exact ⟨hb, hc⟩
      | ok out =>
          obtain ⟨s', evs⟩ := out
          obtain ⟨-, -, -, h0, rfl⟩ := placeBet_ok_inv h'
          dsimp only [setBetRecord]
          split
          · rename_i hcond
            obtain ⟨rfl, rfl⟩ := hcond
            rw [hb] at h0
            exact absurd h0 ha
          · exact ⟨hb, hc⟩
  | resolve sender now mid o =>
      dsimp only [step]
      cases h' : resolveMarket s sender now mid o with
      | error e => exact ⟨hb, hc⟩
      | ok out =>
          obtain ⟨s', evs⟩ := out
          obtain ⟨-, -, -, -, rfl⟩ := resolveMarket_ok_inv h'
          exact ⟨hb, hc⟩
  | claim sender mid =>
      dsimp only [step]
      cases h' : claimWinnings s sender mid with
      | error e => exact ⟨hb, hc⟩
      | ok out =>
          obtain ⟨s', p, evs⟩ := out
          obtain ⟨-, -, -, -, rfl⟩ := claimWinnings_ok_inv h'
          dsimp only [setBetRecord]
          split
          · rename_i hcond
            obtain ⟨rfl, rfl⟩ := hcond
            exact ⟨hb, rfl⟩
          · exact ⟨hb, hc⟩

theorem run_claimed_persists (s : ContractState) (cs : List Call) (m : Nat)
    (a : Address) (ha : a ≠ 0) (hb : (s.bets m a).bettor = a)
    (hc : (s.bets m a).claimed = true) :
    ((run s cs).bets m a).claimed = true := by
  induction cs generalizing s with
  | nil => exact hc
  | cons c cs ih =>
      obtain ⟨hb', hc'⟩ := step_claimed_persists s c m a ha hb hc
      exact ih (step s c) hb' hc'

theorem claimWinnings_claimed_fails (s : ContractState) (sender : Address)
    (m : Nat) (h : (s.bets m sender).claimed = true) :
    callOk (claimWinnings s sender m) = false := by
  cases hr : claimWinnings s sender m with
  | error e => rfl
  | ok out =>
      obtain ⟨s', p, evs⟩ := out
      obtain ⟨-, -, -, hcl, -⟩ := claimWinnings_ok_inv hr
      rw [h] at hcl
      cases hcl

/-! ## Claim C4 -/

/-- Claim C4: `claimWinnings(marketId)` fails whenever the market is not
resolved, whenever the caller has no bet on the market (the stored `bettor`
differs from the caller), and whenever the caller's bet is already claimed;
a successful claim starts from an unclaimed bet and sets the `claimed` flag
true, after which a second claim by the same caller fails with the
already-claimed error; and for a real (non-zero) bettor the `claimed` flag,
once true, stays true through every further sequence of entry-point calls. -/
theorem claimWinnings_guards :
    (∀ (s : ContractState) (sender : Address) (m : Nat),
        (s.markets m).resolved = false →
        callOk (claimWinnings s sender m) = false) ∧
    (∀ (s : ContractState) (sender : Address) (m : Nat),
        (s.bets m sender).bettor ≠ sender →
        callOk (claimWinnings s sender m) = false) ∧
    (∀ (s : ContractState) (sender : Address) (m : Nat),
        (s.bets m sender).claimed = true →
        callOk (claimWinnings s sender m) = false) ∧
    (∀ (s : ContractState) (sender : Address) (m : Nat)
        (out : ContractState × Option Wei × List Event),
        claimWinnings s sender m = .ok out →
        (s.bets m sender).claimed = false ∧
        ((out.1).bets m sender).claimed = true ∧
        callErr (claimWinnings out.1 sender m) = some CErr.alreadyClaimed) ∧
    (∀ (s : ContractState) (cs : List Call) (m : Nat) (a : Address),
        a ≠ 0 → (s.bets m a).bettor = a → (s.bets m a).claimed = true →
        ((run s cs).bets m a).claimed = true) := by
  refine ⟨?_, ?_, claimWinnings_claimed_fails, ?_, run_claimed_persists⟩
  · intro s sender m h
    cases hr : claimWinnings s sender m with
    | error e => rfl
    | ok out =>
        obtain ⟨s', p, evs⟩ := out
        obtain ⟨-, hres, -, -, -⟩ := claimWinnings_ok_inv hr
        rw [h] at hres
        cases hres
  · intro s sender m h
    cases hr : claimWinnings s sender m with
    | error e => rfl
    | ok out =>
        obtain ⟨s', p, evs⟩ := out
        obtain ⟨-, -, hbet, -, -⟩ := claimWinnings_ok_inv hr
        exact absurd hbet h
  · intro s sender m out hok
    obtain ⟨s', p, evs⟩ := out
    obtain ⟨hex, hres, hbet, hcl, rfl⟩ := claimWinnings_ok_inv hok
    refine ⟨hcl, by rw [setBetRecord_read_same], ?_⟩
    have hex' : marketExists
        (setBetRecord s m sender { s.bets m sender with claimed := true }) m :=
      hex
    have hres' : ((setBetRecord s m sender
        { s.bets m sender with claimed := true }).markets m).resolved = true :=
      hres
    have hbet' : ((setBetRecord s m sender
        { s.bets m sender with claimed := true }).bets m sender).bettor =
        sender := by
      rw [setBetRecord_read_same]
      exact hbet
    have hcl' : ((setBetRecord s m sender
        { s.bets m sender with claimed := true }).bets m sender).claimed =
        true := by
      rw [setBetRecord_read_same]
    unfold claimWinnings
    rw [if_neg (not_not_intro hex'), if_neg (not_not_intro hres'),
      if_neg (not_not_intro hbet'), if_pos hcl']
    rfl

theorem claimWinnings_guards_witness :
    callOk (claimWinnings c1AfterCreate 10 0) = false ∧
    callOk (claimWinnings resolvedWithBet 5 0) = false ∧
    callOk (claimWinnings (step resolvedWithBet (Call.claim 10 0)) 10 0) = false ∧
    ((resolvedWithBet.bets 0 10).claimed = false ∧
      ((step resolvedWithBet (Call.claim 10 0)).bets 0 10).claimed = true ∧
      callErr (claimWinnings (step resolvedWithBet (Call.claim 10 0)) 10 0) =
        some CErr.alreadyClaimed) ∧
    ((run (step resolvedWithBet (Call.claim 10 0))
        [Call.bet 20 7 MIN_BET 0 false, Call.resolve 1 12 0 false]).bets 0 10).claimed
      = true :=
  ⟨claimWinnings_guards.1 c1AfterCreate 10 0 (by decide),
   claimWinnings_guards.2.1 resolvedWithBet 5 0 (by decide),
   claimWinnings_guards.2.2.1 (step resolvedWithBet (Call.claim 10 0)) 10 0
     (by decide),
   claimWinnings_guards.2.2.2.1 resolvedWithBet 10 0
     (step resolvedWithBet (Call.claim 10 0), none, []) rfl,
   claimWinnings_guards.2.2.2.2 (step resolvedWithBet (Call.claim 10 0))
     [Call.bet 20 7 MIN_BET 0 false, Call.resolve 1 12 0 false] 0 10
     (by decide) (by decide) (by decide)⟩

/-! ## Claim C5 -/

/-- Claim C5 counterexample: address 2 is not the creator of market 0 (the
creator is address 1), yet `resolveMarket` called by address 2 before the
market's end time fails with the end-time precondition error
`marketNotEnded`, not with the authorization error `onlyCreator`: the
`marketEnded` modifier runs before `onlyCreator`, so a non-creator does not
always receive the authorization error. -/
theorem resolveMarket_error_priority_cex :
    (2 : Address) ≠ (c1AfterCreate.markets 0).creator ∧
    callErr (resolveMarket c1AfterCreate 2 50 0 true) =
      some CErr.marketNotEnded ∧
    CErr.marketNotEnded ≠ CErr.onlyCreator :=
  ⟨by decide, by decide, by decide⟩

/-- Claim C5 (amended): `resolveMarket(marketId, outcome)` always fails for a
caller other than the market's creator — with the authorization error
specifically whenever the market exists and has reached its end time (the
`marketEnded` modifier runs before `onlyCreator`, so before the end time the
failure is the end-time precondition error instead); it always fails when
called before the market's end time and when the market is already resolved;
and when it succeeds it sets both the `resolved` flag and the `outcome`
flag. -/
theorem resolveMarket_guards :
    (∀ (s : ContractState) (sender : Address) (now m : Nat) (o : Bool),
        sender ≠ (s.markets m).creator →
        callOk (resolveMarket s sender now m o) = false) ∧
    (∀ (s : ContractState) (sender : Address) (now m : Nat) (o : Bool),
        now < (s.markets m).endTime →
        callOk (resolveMarket s sender now m o) = false) ∧
    (∀ (s : ContractState) (sender : Address) (now m : Nat) (o : Bool),
        (s.markets m).resolved = true →
        callOk (resolveMarket s sender now m o) = false) ∧
    (∀ (s : ContractState) (sender : Address) (now m : Nat) (o : Bool),
        marketExists s m → marketEnded s m now →
        sender ≠ (s.markets m).creator →
        callErr (resolveMarket s sender now m o) = some CErr.onlyCreator) ∧
    (∀ (s : ContractState) (sender : Address) (now m : Nat) (o : Bool)
        (out : ContractState × List Event),
        resolveMarket s sender now m o = .ok out →
        ((out.1).markets m).resolved = true ∧
        ((out.1).markets m).outcome = o) := by
  refine ⟨?_, ?_, ?_, ?_, ?_⟩
  · intro s sender now m o h
    cases hr : resolveMarket s sender now m o with
    | error e => rfl
    | ok out =>
        obtain ⟨s', evs⟩ := out
        obtain ⟨-, -, hcr, -, -⟩ := resolveMarket_ok_inv hr
        exact absurd hcr h
  · intro s sender now m o h
    cases hr : resolveMarket s sender now m o with
    | error e => rfl
    | ok out =>
        obtain ⟨s', evs⟩ := out
        obtain ⟨-, hend, -, -, -⟩ := resolveMarket_ok_inv hr
        exact absurd hend (Nat.not_le_of_lt h)
  · intro s sender now m o h
    cases hr : resolveMarket s sender now m o with
    | error e => rfl
    | ok out =>
        obtain ⟨s', evs⟩ := out
        obtain ⟨-, -, -, hres, -⟩ := resolveMarket_ok_inv hr
        rw [h] at hres
        cases hres
  · intro s sender now m o hex hend h
    unfold resolveMarket
    rw [if_neg (not_not_intro hex), if_neg (not_not_intro hend), if_pos h]
    rfl
  · intro s sender now m o out hok
    obtain ⟨s', evs⟩ := out
    obtain ⟨-, -, -, -, rfl⟩ := resolveMarket_ok_inv hok
    rw [setMarket_read_same]
    exact ⟨rfl, rfl⟩

theorem resolveMarket_guards_witness :
    callOk (resolveMarket c1AfterCreate 2 200 0 true) = false ∧
    callOk (resolveMarket c1AfterCreate 1 50 0 true) = false ∧
    callOk (resolveMarket witState 1 20 0 true) = false ∧
    callErr (resolveMarket c1AfterCreate 2 200 0 true) =
      some CErr.onlyCreator ∧
    (((step c1AfterCreate (Call.resolve 1 200 0 true)).markets 0).resolved = true ∧
      ((step c1AfterCreate (Call.resolve 1 200 0 true)).markets 0).outcome = true) :=
  ⟨resolveMarket_guards.1 c1AfterCreate 2 200 0 true (by decide),
   resolveMarket_guards.2.1 c1AfterCreate 1 50 0 true (by decide),
   resolveMarket_guards.2.2.1 witState 1 20 0 true (by decide),
   resolveMarket_guards.2.2.2.1 c1AfterCreate 2 200 0 true (by decide) (by decide)
     (by decide),
   resolveMarket_guards.2.2.2.2 c1AfterCreate 1 200 0 true
     (step c1AfterCreate (Call.resolve 1 200 0 true),
      [Event.MarketResolved 0 true]) rfl⟩

/-! ## Claim C7 -/

theorem setBetRecord_markets (s : ContractState) (m : Nat) (a : Address)
    (b : Bet) : (setBetRecord s m a b).markets = s.markets := rfl

theorem marketExists_setBetRecord (s : ContractState) (m : Nat) (a : Address)
    (b : Bet) (i : Nat) :
    marketExists (setBetRecord s m a b) i ↔ marketExists s i := Iff.rfl

theorem claimWinnings_pools_positive (s : ContractState) (sender : Address)
    (m : Nat) (hex : marketExists s m) (hres : (s.markets m).resolved = true)
    (hbet : (s.bets m sender).bettor = sender)
    (hcl : (s.bets m sender).claimed = false)
    (hw : 0 < winningPool (s.markets m)) (hl : 0 < losingPool (s.markets m)) :
    claimWinnings s sender m = .ok
      (setBetRecord s m sender { s.bets m sender with claimed := true },
       some (MIN_BET +
         MIN_BET * losingPool (s.markets m) / winningPool (s.markets m)),
       [Event.WinningsClaimed m sender
         (MIN_BET +
           MIN_BET * losingPool (s.markets m) / winningPool (s.markets m))]) := by
  unfold claimWinnings
  rw [if_neg (not_not_intro hex), if_neg (not_not_intro hres),
    if_neg (not_not_intro hbet), if_neg (by simp [hcl])]
  simp only [winningPool, losingPool] at hw hl ⊢
  rw [if_pos ⟨hw, hl⟩]

/-- Claim C7: a successful `claimWinnings` call on a market whose winning and
losing pools are both positive transfers exactly
`s + s * totalLosingPool / totalWinningPool` in exact natural-number
arithmetic, where the per-user stake `s` is the fixed constant `MIN_BET`
(not the caller's encrypted stake) and the pools are the aggregate totals
selected by the resolved outcome; the winnings-claimed event carries the
same amount. -/
theorem claimWinnings_payout_formula :
    ∀ (s : ContractState) (sender : Address) (m : Nat),
      marketExists s m → (s.markets m).resolved = true →
      (s.bets m sender).bettor = sender → (s.bets m sender).claimed = false →
      0 < winningPool (s.markets m) → 0 < losingPool (s.markets m) →
      callOk (claimWinnings s sender m) = true ∧
      claimPayout (claimWinnings s sender m) =
        some (MIN_BET +
          MIN_BET * losingPool (s.markets m) / winningPool (s.markets m)) ∧
      claimEvents (claimWinnings s sender m) =
        [Event.WinningsClaimed m sender
          (MIN_BET +
            MIN_BET * losingPool (s.markets m) / winningPool (s.markets m))] := by
  intro s sender m hex hres hbet hcl hw hl
  rw [claimWinnings_pools_positive s sender m hex hres hbet hcl hw hl]
  exact ⟨rfl, rfl, rfl⟩

theorem claimWinnings_payout_formula_witness :
    callOk (claimWinnings pooledState 5 0) = true ∧
    claimPayout (claimWinnings pooledState 5 0) = some 1666666666666666 ∧
    claimEvents (claimWinnings pooledState 5 0) =
      [Event.WinningsClaimed 0 5 1666666666666666] :=
  claimWinnings_payout_formula pooledState 5 0 (by decide) (by decide)
    (by decide) (by decide) (by decide) (by decide)

/-! ## Claim C8 -/

/-- Claim C8: a `placeBet` call whose stake is below `MIN_BET` or above
`MAX_BET` always fails, and by revert atomicity the transaction leaves the
state completely unchanged; when the market exists and is active the failure
is precisely the `invalidBetAmount` validation error. -/
theorem placeBet_out_of_range_rejected :
    (∀ (s : ContractState) (sender : Address) (now value m : Nat) (p : Bool),
        (value < MIN_BET ∨ MAX_BET < value) →
        callOk (placeBet s sender now value m p) = false ∧
        step s (Call.bet sender now value m p) = s) ∧
    (∀ (s : ContractState) (sender : Address) (now value m : Nat) (p : Bool),
        marketExists s m → marketActive s m now →
        (value < MIN_BET ∨ MAX_BET < value) →
        callErr (placeBet s sender now value m p) =
          some CErr.invalidBetAmount) := by
  have hrange : ∀ value : Nat, (value < MIN_BET ∨ MAX_BET < value) →
      ¬(MIN_BET ≤ value ∧ value ≤ MAX_BET) := by
    intro value h hc
    rcases h with h | h
    · exact absurd hc.1 (Nat.not_le_of_lt h)
    · exact absurd hc.2 (Nat.not_le_of_lt h)
  constructor
  · intro s sender now value m p h
    cases hr : placeBet s sender now value m p with
    | error e =>
        refine ⟨rfl, ?_⟩
        dsimp only [step]
        rw [hr]
    | ok out =>
        obtain ⟨s', evs⟩ := out
        obtain ⟨-, -, hc, -, -⟩ := placeBet_ok_inv hr
        exact absurd hc (hrange value h)
  · intro s sender now value m p hex hact h
    unfold placeBet
    rw [if_neg (not_not_intro hex), if_neg (not_not_intro hact),
      if_pos (hrange value h)]
    rfl

theorem placeBet_out_of_range_rejected_witness :
    (callOk (placeBet c1AfterCreate 10 5 5 0 true) = false ∧
      step c1AfterCreate (Call.bet 10 5 5 0 true) = c1AfterCreate) ∧
    callErr (placeBet c1AfterCreate 10 5 5 0 true) =
      some CErr.invalidBetAmount :=
  ⟨placeBet_out_of_range_rejected.1 c1AfterCreate 10 5 5 0 true
     (Or.inl (by decide)),
   placeBet_out_of_range_rejected.2 c1AfterCreate 10 5 5 0 true (by decide)
     (by decide) (Or.inl (by decide))⟩

/-! ## Claim C9 -/

/-- Claim C9 (hyperproperty): the outcome of `claimWinnings` — success,
transferred amount and emitted events — does not depend on the caller's
stored encrypted stake or encrypted prediction: two runs on states that
differ only in those two fields of the caller's bet record (same `claimed`,
same `bettor`) succeed or fail identically and transfer identical amounts,
so a bettor whose prediction lost is paid exactly like one whose prediction
won. -/
theorem claimWinnings_ignores_encrypted_bet :
    ∀ (s : ContractState) (sender : Address) (m : Nat) (b₁ b₂ : Bet),
      b₁.claimed = b₂.claimed → b₁.bettor = b₂.bettor →
      callOk (claimWinnings (setBetRecord s m sender b₁) sender m) =
        callOk (claimWinnings (setBetRecord s m sender b₂) sender m) ∧
      claimPayout (claimWinnings (setBetRecord s m sender b₁) sender m) =
        claimPayout (claimWinnings (setBetRecord s m sender b₂) sender m) ∧
      claimEvents (claimWinnings (setBetRecord s m sender b₁) sender m) =
        claimEvents (claimWinnings (setBetRecord s m sender b₂) sender m) := by
  intro s sender m b₁ b₂ h1 h2
  refine ⟨?_, ?_, ?_⟩ <;>
  · simp only [claimWinnings, marketExists_setBetRecord, setBetRecord_markets,
      setBetRecord_read_same, h1, h2]
    split_ifs <;> rfl

theorem claimWinnings_ignores_encrypted_bet_witness :
    callOk (claimWinnings (setBetRecord pooledState 0 5
        { encryptedAmount := 1, encryptedPrediction := true, claimed := false,
          bettor := 5 }) 5 0) =
      callOk (claimWinnings (setBetRecord pooledState 0 5
        { encryptedAmount := 9000, encryptedPrediction := false,
          claimed := false, bettor := 5 }) 5 0) ∧
    claimPayout (claimWinnings (setBetRecord pooledState 0 5
        { encryptedAmount := 1, encryptedPrediction := true, claimed := false,
          bettor := 5 }) 5 0) =
      claimPayout (claimWinnings (setBetRecord pooledState 0 5
        { encryptedAmount := 9000, encryptedPrediction := false,
          claimed := false, bettor := 5 }) 5 0) ∧
    claimEvents (claimWinnings (setBetRecord pooledState 0 5
        { encryptedAmount := 1, encryptedPrediction := true, claimed := false,
          bettor := 5 }) 5 0) =
      claimEvents (claimWinnings (setBetRecord pooledState 0 5
        { encryptedAmount := 9000, encryptedPrediction := false,
          claimed := false, bettor := 5 }) 5 0) :=
  claimWinnings_ignores_encrypted_bet pooledState 5 0
    { encryptedAmount := 1, encryptedPrediction := true, claimed := false,
      bettor := 5 }
    { encryptedAmount := 9000, encryptedPrediction := false, claimed := false,
      bettor := 5 } (by decide) (by decide)

/-! ## Claim C10 -/

theorem claimWinnings_pools_zero (s : ContractState) (sender : Address)
    (m : Nat) (hex : marketExists s m) (hres : (s.markets m).resolved = true)
    (hbet : (s.bets m sender).bettor = sender)
    (hcl : (s.bets m sender).claimed = false)
    (h0 : winningPool (s.markets m) = 0 ∨ losingPool (s.markets m) = 0) :
    claimWinnings s sender m = .ok
      (setBetRecord s m sender { s.bets m sender with claimed := true },
       none, []) := by
  have hcond : ¬(0 < winningPool (s.markets m) ∧
      0 < losingPool (s.markets m)) := by
    rcases h0 with h | h <;> simp [h]
  unfold claimWinnings
  rw [if_neg (not_not_intro hex), if_neg (not_not_intro hres),
    if_neg (not_not_intro hbet), if_neg (by simp [hcl])]
  simp only [winningPool, losingPool] at hcond
  rw [if_neg hcond]

/-- Claim C10: when the market is resolved and the caller has an unclaimed
bet but the winning pool or the losing pool is zero, `claimWinnings`
succeeds, sets the bet's `claimed` flag to true, transfers nothing and emits
no winnings-claimed event — and a second claim then fails, so the caller
permanently forfeits any payout for that bet. -/
theorem claimWinnings_zero_pool_forfeits :
    ∀ (s : ContractState) (sender : Address) (m : Nat),
      marketExists s m → (s.markets m).resolved = true →
      (s.bets m sender).bettor = sender → (s.bets m sender).claimed = false →
      (winningPool (s.markets m) = 0 ∨ losingPool (s.markets m) = 0) →
      callOk (claimWinnings s sender m) = true ∧
      claimPayout (claimWinnings s sender m) = none ∧
      claimEvents (claimWinnings s sender m) = [] ∧
      ((step s (Call.claim sender m)).bets m sender).claimed = true ∧
      callOk (claimWinnings (step s (Call.claim sender m)) sender m) = false := by
  intro s sender m hex hres hbet hcl h0
  have heq := claimWinnings_pools_zero s sender m hex hres hbet hcl h0
  have hstep : step s (Call.claim sender m) =
      setBetRecord s m sender { s.bets m sender with claimed := true } := by
    dsimp only [step]
    rw [heq]
  rw [heq, hstep]
  refine ⟨rfl, rfl, rfl, by rw [setBetRecord_read_same], ?_⟩
  apply claimWinnings_claimed_fails
  rw [setBetRecord_read_same]

theorem claimWinnings_zero_pool_forfeits_witness :
    callOk (claimWinnings resolvedWithBet 10 0) = true ∧
    claimPayout (claimWinnings resolvedWithBet 10 0) = none ∧
    claimEvents (claimWinnings resolvedWithBet 10 0) = [] ∧
    ((step resolvedWithBet (Call.claim 10 0)).bets 0 10).claimed = true ∧
    callOk (claimWinnings (step resolvedWithBet (Call.claim 10 0)) 10 0) =
      false :=
  claimWinnings_zero_pool_forfeits resolvedWithBet 10 0 (by decide) (by decide)
    (by decide) (by decide) (Or.inl (by decide))

end PredictionMarket
